import Mathlib

/-!
Shallow embedding of the SwitchLang keystroke-correction engine
(`src/main.py`, class `SwitchLang`).

The engine state is modelled by `SwitchLang.State` (the mutable fields of the
Python object that the key-event path touches).  Per-key behaviour is the pure
step function `on_key_event`, which returns the new state together with the
list of replay actions (`keyboard.press_and_release('backspace')` /
`keyboard.write(...)` calls) emitted during that event.  Python strings are
modelled as `List Char` for the mutable buffer and as `String` for tokens;
dictionaries are modelled as `String → Option String`.
-/

namespace SwitchLang

/-- A synthetic-input action replayed into the focused application:
either one `press_and_release('backspace')` or one `write(text)` call. -/
inductive ReplayAction where
  | pressBackspace
  | write (text : String)
deriving DecidableEq, Repr

/-- Keyboard event type; the handler only reacts to `KEY_DOWN`. -/
inductive EventType where
  | keyDown
  | keyUp
deriving DecidableEq, Repr

/-- A raw keyboard event as delivered by the `keyboard` hook: an event type, a
key `name` (for example "space", "enter", "backspace", a single character, or a
modifier name) and an optional scan code. -/
structure KeyEvent where
  event_type : EventType
  name : String
  scan_code : Option Nat
deriving DecidableEq, Repr

/-- A mapping table (Python `dict` of token to token): lookup by key. -/
abbrev MappingTable := String → Option String

/-- The mutable state of the `SwitchLang` object used by the key-event path:
`buffer` (Python `self.buffer`, a string, modelled as its character list),
the run flag, the two mapping dictionaries and the recent-words history. -/
structure State where
  buffer : List Char
  is_running : Bool
  thai_to_eng_mappings : MappingTable
  eng_to_thai_mappings : MappingTable
  recent_words : List String

/-- Python whitespace as stripped by `str.strip()` (the ASCII whitespace
characters, which are the only ones relevant here). -/
def isPySpace (c : Char) : Bool :=
  c = ' ' || c = '\t' || c = '\n' || c = '\r' || c = '\x0b' || c = '\x0c'

/-- Python `s.strip()` on the buffer: drop leading and trailing whitespace,
returning the evaluated token as a `String`. -/
def pyStrip (l : List Char) : String :=
  String.mk (((l.dropWhile isPySpace).reverse.dropWhile isPySpace).reverse)

/-- `SwitchLang.apply_correction` (src/main.py lines 162-172): press backspace
`len(wrong_word) + 1` times, write `correct_word + ' '`, and reset the buffer
to the empty string. -/
def apply_correction (st : State) (wrong_word correct_word : String) :
    State × List ReplayAction :=
  ({ st with buffer := [] },
   List.replicate (wrong_word.length + 1) ReplayAction.pressBackspace
     ++ [ReplayAction.write (correct_word ++ " ")])

/-- `SwitchLang.check_and_correct_word` (src/main.py lines 138-160): strip the
buffer; if empty, do nothing; otherwise look the word up first in
`thai_to_eng_mappings`, then in `eng_to_thai_mappings`, applying the correction
on the first hit; with no hit, append the word to `recent_words` and pop the
front entry when the length exceeds 20. -/
def check_and_correct_word (st : State) : State × List ReplayAction :=
  let current_word := pyStrip st.buffer
  if current_word = "" then (st, [])
  else
    match st.thai_to_eng_mappings current_word with
    | some corrected_word => apply_correction st current_word corrected_word
    | none =>
      match st.eng_to_thai_mappings current_word with
      | some corrected_word => apply_correction st current_word corrected_word
      | none =>
        let recent0 := st.recent_words ++ [current_word]
        let recent1 := if recent0.length > 20 then recent0.tail else recent0
        ({ st with recent_words := recent1 }, [])

/-- The names Python compares against in the modifier filter. -/
def modifierNames : List String := ["shift", "ctrl", "alt"]

/-- `SwitchLang.on_key_event` (src/main.py lines 110-136): ignore everything
when not running or not a key-down; on "space", evaluate the word when the
buffer is non-empty and then append a space character to the buffer; on
"enter", clear the buffer; on "backspace", drop the last buffer character when
present; on a single-character name that is not a modifier, append it; else
try to resolve the scan code (`keyboard.key_to_char`, modelled by the
`resolveChar` parameter) to a single character and append that. -/
def on_key_event (resolveChar : Nat → Option String) (st : State)
    (ev : KeyEvent) : State × List ReplayAction :=
  if st.is_running = false then (st, [])
  else if ev.event_type = EventType.keyDown then
    if ev.name = "space" then
      let p := if st.buffer = [] then (st, ([] : List ReplayAction))
               else check_and_correct_word st
      ({ p.1 with buffer := p.1.buffer ++ [' '] }, p.2)
    else if ev.name = "enter" then
      ({ st with buffer := [] }, [])
    else if ev.name = "backspace" then
      if st.buffer = [] then (st, [])
      else ({ st with buffer := st.buffer.dropLast }, [])
    else if ev.name.length = 1 ∨ ev.name ∈ modifierNames then
      if ev.name ∈ modifierNames then (st, [])
      else ({ st with buffer := st.buffer ++ ev.name.data }, [])
    else
      match ev.scan_code with
      | some sc =>
        match resolveChar sc with
        | some ch =>
          if ch ≠ "" ∧ ch.length = 1 then
            ({ st with buffer := st.buffer ++ ch.data }, [])
          else (st, [])
        | none => (st, [])
      | none => (st, [])
  else (st, [])

/-- Process a list of key events in order, threading the state and
concatenating the replay actions emitted by each event. -/
def processEvents (resolveChar : Nat → Option String) :
    State → List KeyEvent → State × List ReplayAction
  | st, [] => (st, [])
  | st, ev :: evs =>
    let p := on_key_event resolveChar st ev
    let q := processEvents resolveChar p.1 evs
    (q.1, p.2 ++ q.2)

/-- A key-down event with the given name and no scan code. -/
def keyDownEvent (name : String) : KeyEvent :=
  { event_type := EventType.keyDown, name := name, scan_code := none }

/-- The space key event (`name == 'space'`). -/
def spaceEvent : KeyEvent := keyDownEvent "space"

/-- The enter key event (`name == 'enter'`). -/
def enterEvent : KeyEvent := keyDownEvent "enter"

/-- The backspace key event (`name == 'backspace'`). -/
def backspaceEvent : KeyEvent := keyDownEvent "backspace"

/-- The key-down event the `keyboard` hook delivers when the user types the
character `c`: the space bar reports name "space" and the return key reports
name "enter"; every other character key reports the character itself as its
name. -/
def eventForChar (c : Char) : KeyEvent :=
  if c = ' ' then spaceEvent
  else if c = '\n' then enterEvent
  else keyDownEvent (String.mk [c])

/-- The stream of key-down events produced by typing the string `t`
character by character. -/
def typeString (t : String) : List KeyEvent := t.data.map eventForChar

/-- Outcome of attempting to read a mapping file, abstracting the file-system
and JSON side effects of `load_mappings`: the file may be absent, present but
unparsable (`json.load` raises), or parsed into a table. -/
inductive FileReadResult where
  | absent
  | unparsable
  | parsed (table : MappingTable)

/-- The empty mapping table (Python `{}`). -/
def emptyTable : MappingTable := fun _ => none

/-- The built-in default Thai-to-English table written when
`thai_to_eng.json` is absent (src/main.py lines 49-53). -/
def defaultThaiToEng : MappingTable := fun w =>
  if w = "l;ylfu8iy[" then some "สวัสดีครับ"
  else if w = "wxwso,k" then some "ไปไหนมา"
  else none

/-- `SwitchLang.load_mappings` (src/main.py lines 36-63) with the file read
abstracted into a `FileReadResult`: a parsed file yields its table; a file
that exists but cannot be parsed logs the error and yields the empty table;
an absent file yields the built-in default for `thai_to_eng.json` and the
empty table otherwise. -/
def load_mappings (filename : String) (r : FileReadResult) : MappingTable :=
  match r with
  | FileReadResult.parsed table => table
  | FileReadResult.unparsable => emptyTable
  | FileReadResult.absent =>
    if filename = "thai_to_eng.json" then defaultThaiToEng else emptyTable

/-- The state built by `SwitchLang.__init__`: empty buffer, running, the two
tables as loaded, empty recent-words history. -/
def initState (A B : MappingTable) : State :=
  { buffer := []
    is_running := true
    thai_to_eng_mappings := A
    eng_to_thai_mappings := B
    recent_words := [] }

/-! ### Concrete states used by witnesses -/

/-- The trivial scan-code resolver (no scan code resolves to a character). -/
def noResolve : Nat → Option String := fun _ => none

/-- A running engine state with buffer "abc", the default Thai table and one
recent word, used to instantiate theorems at a concrete input. -/
def demoState : State :=
  { buffer := ['a', 'b', 'c']
    is_running := true
    thai_to_eng_mappings := defaultThaiToEng
    eng_to_thai_mappings := emptyTable
    recent_words := ["hello"] }

/-- A state whose buffer holds only whitespace. -/
def blankState : State :=
  { buffer := [' ', ' ']
    is_running := true
    thai_to_eng_mappings := defaultThaiToEng
    eng_to_thai_mappings := emptyTable
    recent_words := [] }

/-- A state whose stop flag has been cleared (`is_running = False`). -/
def stoppedState : State :=
  { buffer := ['a', 'b', 'c']
    is_running := false
    thai_to_eng_mappings := defaultThaiToEng
    eng_to_thai_mappings := emptyTable
    recent_words := ["hello"] }

/-- A state whose buffer holds a word mapped in BOTH directions, to exercise
the lookup priority. -/
def conflictState : State :=
  { buffer := ['x']
    is_running := true
    thai_to_eng_mappings := fun w => if w = "x" then some "atarget" else none
    eng_to_thai_mappings := fun w => if w = "x" then some "btarget" else none
    recent_words := [] }

/-- A state whose buffer holds a word mapped only in Direction B. -/
def bOnlyState : State :=
  { buffer := ['y']
    is_running := true
    thai_to_eng_mappings := emptyTable
    eng_to_thai_mappings := fun w => if w = "y" then some "btarget" else none
    recent_words := [] }

/-- A state whose RecentWords history is already at the bound of 20. -/
def fullState : State :=
  { buffer := ['h', 'e', 'l', 'l', 'o']
    is_running := true
    thai_to_eng_mappings := emptyTable
    eng_to_thai_mappings := emptyTable
    recent_words := List.replicate 20 "w" }

/-! ### Helper lemmas -/

lemma mk_single_ne (c : Char) (s : String) (h : s.data.length ≠ 1) :
    String.mk [c] ≠ s :=
  fun he => h (he ▸ rfl)

lemma mk_single_not_modifier (c : Char) : String.mk [c] ∉ modifierNames := by
  intro hmem
  simp only [modifierNames, List.mem_cons, List.not_mem_nil, or_false] at hmem
  rcases hmem with h | h | h
  · exact mk_single_ne c "shift" (by decide) h
  · exact mk_single_ne c "ctrl" (by decide) h
  · exact mk_single_ne c "alt" (by decide) h

lemma on_key_event_plain (resolveChar : Nat → Option String) (st : State)
    (c : Char) (hrun : st.is_running = true) (h1 : c ≠ ' ') (h2 : c ≠ '\n') :
    on_key_event resolveChar st (eventForChar c) =
      ({ st with buffer := st.buffer ++ [c] }, []) := by
  have hl : (String.mk [c]).length = 1 := rfl
  have hs : String.mk [c] ≠ "space" := mk_single_ne c _ (by decide)
  have he : String.mk [c] ≠ "enter" := mk_single_ne c _ (by decide)
  have hb : String.mk [c] ≠ "backspace" := mk_single_ne c _ (by decide)
  have hm : String.mk [c] ∉ modifierNames := mk_single_not_modifier c
  simp [eventForChar, h1, h2, keyDownEvent, on_key_event, hrun, hs, he, hb,
    hm, hl]

lemma processEvents_plainChars (resolveChar : Nat → Option String)
    (st : State) (cs : List Char) (hrun : st.is_running = true)
    (hplain : ∀ c ∈ cs, c ≠ ' ' ∧ c ≠ '\n') :
    processEvents resolveChar st (cs.map eventForChar) =
      ({ st with buffer := st.buffer ++ cs }, []) := by
  induction cs generalizing st with
  | nil => simp [processEvents]
  | cons c cs ih =>
    have hc := hplain c (List.mem_cons_self c cs)
    have hrest : ∀ x ∈ cs, x ≠ ' ' ∧ x ≠ '\n' :=
      fun x hx => hplain x (List.mem_cons_of_mem c hx)
    simp only [List.map_cons, processEvents,
      on_key_event_plain resolveChar st c hrun hc.1 hc.2]
    rw [ih { st with buffer := st.buffer ++ [c] } hrun hrest]
    simp

lemma dropWhile_eq_self_of_none {p : Char → Bool} {l : List Char}
    (h : ∀ c ∈ l, p c = false) : l.dropWhile p = l := by
  cases l with
  | nil => rfl
  | cons a l => simp [List.dropWhile_cons, h a (List.mem_cons_self a l)]

lemma pyStrip_of_no_space (t : String)
    (h : ∀ c ∈ t.data, isPySpace c = false) : pyStrip t.data = t := by
  unfold pyStrip
  rw [dropWhile_eq_self_of_none h]
  rw [dropWhile_eq_self_of_none (fun c hc => h c (List.mem_reverse.mp hc))]
  rw [List.reverse_reverse]

lemma data_ne_nil_of_ne_empty (t : String) (h : t ≠ "") : t.data ≠ [] := by
  intro hd
  apply h
  cases t with
  | mk l => cases hd; rfl

lemma processEvents_append (resolveChar : Nat → Option String) (st : State)
    (l1 l2 : List KeyEvent) :
    processEvents resolveChar st (l1 ++ l2) =
      ((processEvents resolveChar (processEvents resolveChar st l1).1 l2).1,
       (processEvents resolveChar st l1).2 ++
         (processEvents resolveChar (processEvents resolveChar st l1).1
             l2).2) := by
  induction l1 generalizing st with
  | nil => simp [processEvents]
  | cons e l1 ih =>
    simp only [List.cons_append, processEvents, List.append_eq]
    rw [ih]
    simp [List.append_assoc]

lemma on_key_event_space (resolveChar : Nat → Option String) (st : State)
    (hrun : st.is_running = true) (hb : st.buffer ≠ []) :
    on_key_event resolveChar st spaceEvent =
      ({ (check_and_correct_word st).1 with
          buffer := (check_and_correct_word st).1.buffer ++ [' '] },
       (check_and_correct_word st).2) := by
  simp [on_key_event, spaceEvent, keyDownEvent, hrun, hb]

lemma check_matched (st : State) (t target : String)
    (hstrip : pyStrip st.buffer = t) (ht : t ≠ "")
    (hA : st.thai_to_eng_mappings t = some target) :
    check_and_correct_word st = apply_correction st t target := by
  simp [check_and_correct_word, hstrip, ht, hA]

lemma check_matched_b (st : State) (t target : String)
    (hstrip : pyStrip st.buffer = t) (ht : t ≠ "")
    (hA : st.thai_to_eng_mappings t = none)
    (hB : st.eng_to_thai_mappings t = some target) :
    check_and_correct_word st = apply_correction st t target := by
  simp [check_and_correct_word, hstrip, ht, hA, hB]

lemma check_unmatched (st : State) (t : String)
    (hstrip : pyStrip st.buffer = t) (ht : t ≠ "")
    (hA : st.thai_to_eng_mappings t = none)
    (hB : st.eng_to_thai_mappings t = none) :
    check_and_correct_word st =
      ({ st with recent_words :=
          if (st.recent_words ++ [t]).length > 20 then
            (st.recent_words ++ [t]).tail
          else st.recent_words ++ [t] }, []) := by
  simp [check_and_correct_word, hstrip, ht, hA, hB]

lemma check_recent_le (st : State) (h : st.recent_words.length ≤ 20) :
    (check_and_correct_word st).1.recent_words.length ≤ 20 := by
  by_cases h0 : pyStrip st.buffer = ""
  · simp [check_and_correct_word, h0, h]
  · cases hA : st.thai_to_eng_mappings (pyStrip st.buffer) with
    | some a => simp [check_and_correct_word, h0, hA, apply_correction, h]
    | none =>
      cases hB : st.eng_to_thai_mappings (pyStrip st.buffer) with
      | some b => simp [check_and_correct_word, h0, hA, hB, apply_correction, h]
      | none =>
        simp only [check_and_correct_word, h0, hA, hB, if_false]
        split
        · simp_all
        · simp_all

lemma on_key_event_recent_cases (resolveChar : Nat → Option String)
    (st : State) (ev : KeyEvent) :
    (on_key_event resolveChar st ev).1.recent_words = st.recent_words ∨
    (on_key_event resolveChar st ev).1.recent_words =
      (check_and_correct_word st).1.recent_words := by
  rw [on_key_event]
  repeat' split
  all_goals simp

lemma processEvents_recent_le (resolveChar : Nat → Option String) (st : State)
    (evs : List KeyEvent) (h : st.recent_words.length ≤ 20) :
    (processEvents resolveChar st evs).1.recent_words.length ≤ 20 := by
  induction evs generalizing st with
  | nil => simpa [processEvents] using h
  | cons e evs ih =>
    simp only [processEvents]
    apply ih
    rcases on_key_event_recent_cases resolveChar st e with hc | hc
    · rw [hc]; exact h
    · rw [hc]; exact check_recent_le st h

lemma getLast_append_bound (l : List String) (t : String) :
    (if (l ++ [t]).length > 20 then (l ++ [t]).tail
     else l ++ [t]).getLast? = some t := by
  split
  · cases l with
    | nil => simp_all
    | cons a l => simp [List.getLast?_concat]
  · simp [List.getLast?_concat]

/-! ### Claims -/

/-- Claim C6: a reset-key (enter) event empties the buffer, performs no
evaluation, emits no Correction and leaves RecentWords unchanged, for any
running state and any buffer contents. -/
theorem reset_key_clears_buffer_no_eval (resolveChar : Nat → Option String)
    (st : State) (hrun : st.is_running = true) :
    (on_key_event resolveChar st enterEvent).1.buffer = [] ∧
    (on_key_event resolveChar st enterEvent).1.recent_words = st.recent_words ∧
    (on_key_event resolveChar st enterEvent).2 = [] := by
  refine ⟨?_, ?_, ?_⟩ <;>
    simp [on_key_event, enterEvent, keyDownEvent, hrun]

/-- Witness for C6 at the state with buffer "abc". -/
theorem reset_key_clears_buffer_no_eval_witness :
    (on_key_event noResolve demoState enterEvent).1.buffer = [] ∧
    (on_key_event noResolve demoState enterEvent).1.recent_words =
      demoState.recent_words ∧
    (on_key_event noResolve demoState enterEvent).2 = [] :=
  reset_key_clears_buffer_no_eval noResolve demoState rfl

/-- Claim C7: a backspace event removes exactly the last buffer character
(`List.dropLast`, a no-op on the empty buffer), triggers no evaluation, emits
no Correction and leaves RecentWords unchanged. -/
theorem backspace_drops_last_no_eval (resolveChar : Nat → Option String)
    (st : State) (hrun : st.is_running = true) :
    (on_key_event resolveChar st backspaceEvent).1.buffer =
      st.buffer.dropLast ∧
    (on_key_event resolveChar st backspaceEvent).1.recent_words =
      st.recent_words ∧
    (on_key_event resolveChar st backspaceEvent).2 = [] := by
  by_cases hb : st.buffer = [] <;>
    refine ⟨?_, ?_, ?_⟩ <;>
      simp [on_key_event, backspaceEvent, keyDownEvent, hrun, hb]

/-- Witness for C7 at the state with buffer "abc". -/
theorem backspace_drops_last_no_eval_witness :
    (on_key_event noResolve demoState backspaceEvent).1.buffer =
      demoState.buffer.dropLast ∧
    (on_key_event noResolve demoState backspaceEvent).1.recent_words =
      demoState.recent_words ∧
    (on_key_event noResolve demoState backspaceEvent).2 = [] :=
  backspace_drops_last_no_eval noResolve demoState rfl

/-- Claim C8: when the whitespace-trimmed buffer is empty, evaluation returns
with no action at all: the state is unchanged (no RecentWords append, no
buffer change) and no replay action is emitted. -/
theorem blank_token_no_action (st : State) (h : pyStrip st.buffer = "") :
    check_and_correct_word st = (st, []) := by
  simp [check_and_correct_word, h]

/-- Witness for C8 at a buffer holding only two spaces. -/
theorem blank_token_no_action_witness :
    check_and_correct_word blankState = (blankState, []) :=
  blank_token_no_action blankState (by decide)

/-- Claim C9: loading a mapping table whose backing file exists but cannot be
parsed returns the empty table instead of raising. -/
theorem unparsable_file_empty_table (filename : String) :
    load_mappings filename FileReadResult.unparsable = emptyTable := rfl

/-- Witness for C9 at the Thai-to-English file name. -/
theorem unparsable_file_empty_table_witness :
    load_mappings "thai_to_eng.json" FileReadResult.unparsable = emptyTable :=
  unparsable_file_empty_table "thai_to_eng.json"

/-- Claim C10: once the stop flag is cleared (`is_running = False`), every key
event returns immediately: the whole state (buffer, RecentWords, both tables)
is unchanged and no replay action is emitted. -/
theorem stopped_ignores_events (resolveChar : Nat → Option String)
    (st : State) (ev : KeyEvent) (h : st.is_running = false) :
    on_key_event resolveChar st ev = (st, []) := by
  simp [on_key_event, h]

/-- Witness for C10: a space event delivered to a stopped engine. -/
theorem stopped_ignores_events_witness :
    on_key_event noResolve stoppedState spaceEvent = (stoppedState, []) :=
  stopped_ignores_events noResolve stoppedState spaceEvent rfl

/-- Claim C1: for a token `t` mapped in Direction A (with `t` non-empty,
whitespace-free, so that each of its characters arrives as one printable key
event), typing the characters of `t` from the initial state and then the
boundary (space) key emits exactly one correction: `len(t) + 1` backspace
presses followed by one write of the Direction A target plus a single
space. -/
theorem thai_key_emits_single_correction (resolveChar : Nat → Option String)
    (A B : MappingTable) (t target : String)
    (hA : A t = some target) (ht : t ≠ "")
    (hplain : ∀ c ∈ t.data, isPySpace c = false) :
    (processEvents resolveChar (initState A B)
        (typeString t ++ [spaceEvent])).2 =
      List.replicate (t.length + 1) ReplayAction.pressBackspace
        ++ [ReplayAction.write (target ++ " ")] := by
  have hchars : ∀ c ∈ t.data, c ≠ ' ' ∧ c ≠ '\n' := by
    intro c hc
    have h := hplain c hc
    refine ⟨?_, ?_⟩ <;> rintro rfl <;> simp [isPySpace] at h
  have hstep := processEvents_plainChars resolveChar (initState A B) t.data
    rfl hchars
  have hbne : (initState A B).buffer ++ t.data ≠ [] := by
    simp [initState]
    exact data_ne_nil_of_ne_empty t ht
  have hstrip :
      pyStrip ({ initState A B with
        buffer := (initState A B).buffer ++ t.data } : State).buffer = t := by
    simp only [initState]
    simp only [List.nil_append]
    exact pyStrip_of_no_space t hplain
  have hcheck := check_matched
    ({ initState A B with buffer := (initState A B).buffer ++ t.data })
    t target hstrip ht hA
  rw [typeString, processEvents_append, hstep]
  simp only [processEvents]
  rw [on_key_event_space resolveChar _ rfl hbne, hcheck]
  simp [apply_correction]

/-- Witness for C1: the documented Thai scenario, mapping "l;ylfu8iy[" to
"สวัสดีครับ"; the emitted correction erases 11 characters and writes
"สวัสดีครับ" plus a space. -/
theorem thai_key_emits_single_correction_witness :
    (processEvents noResolve (initState defaultThaiToEng emptyTable)
        (typeString "l;ylfu8iy[" ++ [spaceEvent])).2 =
      List.replicate 11 ReplayAction.pressBackspace
        ++ [ReplayAction.write ("สวัสดีครับ" ++ " ")] :=
  thai_key_emits_single_correction noResolve defaultThaiToEng emptyTable
    "l;ylfu8iy[" "สวัสดีครับ" (by decide) (by decide) (by decide)

/-- Claim C3: for a token `t` (non-empty, whitespace-free) absent from both
tables, typing its characters from a fresh-buffer running state and then the
boundary key emits no replay action and appends `t` to RecentWords (it becomes
the tail entry of the history). -/
theorem unmatched_token_no_replay_appends_recent
    (resolveChar : Nat → Option String) (st : State) (t : String)
    (hrun : st.is_running = true) (hbuf : st.buffer = [])
    (hA : st.thai_to_eng_mappings t = none)
    (hB : st.eng_to_thai_mappings t = none)
    (ht : t ≠ "") (hplain : ∀ c ∈ t.data, isPySpace c = false) :
    (processEvents resolveChar st (typeString t ++ [spaceEvent])).2 = [] ∧
    (processEvents resolveChar st
        (typeString t ++ [spaceEvent])).1.recent_words.getLast? = some t := by
  have hchars : ∀ c ∈ t.data, c ≠ ' ' ∧ c ≠ '\n' := by
    intro c hc
    have h := hplain c hc
    refine ⟨?_, ?_⟩ <;> rintro rfl <;> simp [isPySpace] at h
  have hstep := processEvents_plainChars resolveChar st t.data hrun hchars
  have hbne : st.buffer ++ t.data ≠ [] := by
    rw [hbuf]
    simpa using data_ne_nil_of_ne_empty t ht
  have hstrip :
      pyStrip ({ st with buffer := st.buffer ++ t.data } : State).buffer
        = t := by
    simp only [hbuf]
    simp only [List.nil_append]
    exact pyStrip_of_no_space t hplain
  have hcheck := check_unmatched
    ({ st with buffer := st.buffer ++ t.data }) t hstrip ht hA hB
  rw [typeString, processEvents_append, hstep]
  simp only [processEvents]
  rw [on_key_event_space resolveChar
    ({ st with buffer := st.buffer ++ t.data }) hrun hbne, hcheck]
  constructor
  · simp
  · simpa using getLast_append_bound st.recent_words t

/-- Witness for C3: typing "hello" with both tables empty emits nothing and
records "hello" as the newest recent word. -/
theorem unmatched_token_no_replay_appends_recent_witness :
    (processEvents noResolve (initState emptyTable emptyTable)
        (typeString "hello" ++ [spaceEvent])).2 = [] ∧
    (processEvents noResolve (initState emptyTable emptyTable)
        (typeString "hello" ++ [spaceEvent])).1.recent_words.getLast?
      = some "hello" :=
  unmatched_token_no_replay_appends_recent noResolve
    (initState emptyTable emptyTable) "hello" rfl rfl rfl rfl
    (by decide) (by decide)

/-- Claim C4: RecentWords is a bounded FIFO of at most 20 entries: processing
any event sequence from a state within the bound stays within the bound, and
evaluating a non-matching token when the history already holds 20 entries
evicts the oldest (front) entry and appends the new token at the back,
preserving FIFO order of the remaining entries. -/
theorem recent_words_bounded_fifo (resolveChar : Nat → Option String) :
    (∀ st evs, st.recent_words.length ≤ 20 →
      (processEvents resolveChar st evs).1.recent_words.length ≤ 20) ∧
    (∀ st t, pyStrip st.buffer = t → t ≠ "" →
      st.thai_to_eng_mappings t = none → st.eng_to_thai_mappings t = none →
      st.recent_words.length = 20 →
      (check_and_correct_word st).1.recent_words =
        st.recent_words.tail ++ [t]) := by
  constructor
  · exact fun st evs h => processEvents_recent_le resolveChar st evs h
  · intro st t hstrip ht hA hB hlen
    rw [check_unmatched st t hstrip ht hA hB]
    have h21 : (st.recent_words ++ [t]).length > 20 := by simp [hlen]
    simp only [h21, if_true]
    cases hrw : st.recent_words with
    | nil => rw [hrw] at hlen; simp at hlen
    | cons a l => simp

/-- Witness for C4: from a state whose history already holds 20 words, a
boundary event keeps the bound and evaluating "hello" evicts the front
entry. -/
theorem recent_words_bounded_fifo_witness :
    (processEvents noResolve fullState [spaceEvent]).1.recent_words.length
      ≤ 20 ∧
    (check_and_correct_word fullState).1.recent_words =
      fullState.recent_words.tail ++ ["hello"] :=
  ⟨(recent_words_bounded_fifo noResolve).1 fullState [spaceEvent] (by decide),
   (recent_words_bounded_fifo noResolve).2 fullState "hello" (by decide)
     (by decide) rfl rfl (by decide)⟩

/-- Claim C5: lookup checks Direction A (`thai_to_eng_mappings`) first and
Direction B (`eng_to_thai_mappings`) second and uses the first match: a
Direction A hit produces the Direction A correction whatever Direction B
holds for the same token (so Direction A wins on conflict), and a Direction B
hit is used only when Direction A misses. -/
theorem lookup_direction_a_first :
    (∀ st t a, pyStrip st.buffer = t → t ≠ "" →
      st.thai_to_eng_mappings t = some a →
      check_and_correct_word st = apply_correction st t a) ∧
    (∀ st t b, pyStrip st.buffer = t → t ≠ "" →
      st.thai_to_eng_mappings t = none →
      st.eng_to_thai_mappings t = some b →
      check_and_correct_word st = apply_correction st t b) :=
  ⟨fun st t a h1 h2 h3 => check_matched st t a h1 h2 h3,
   fun st t b h1 h2 h3 h4 => check_matched_b st t b h1 h2 h3 h4⟩

/-- Witness for C5: a token mapped in both tables is corrected to the
Direction A target, and a token mapped only in Direction B is corrected to
the Direction B target. -/
theorem lookup_direction_a_first_witness :
    check_and_correct_word conflictState
      = apply_correction conflictState "x" "atarget" ∧
    check_and_correct_word bOnlyState
      = apply_correction bOnlyState "y" "btarget" :=
  ⟨lookup_direction_a_first.1 conflictState "x" "atarget" (by decide)
     (by decide) rfl,
   lookup_direction_a_first.2 bOnlyState "y" "btarget" (by decide)
     (by decide) rfl rfl⟩

/-- Claim C2 is refuted by the code: after a boundary (space) event the buffer
is NOT cleared and the boundary character IS retained.  With "hello" absent
from both tables, typing "hello" then space leaves the buffer holding the six
characters "hello " instead of the empty buffer the specification requires
(on a match the buffer is left holding a single space). -/
theorem boundary_leaves_buffer_nonempty :
    (processEvents noResolve (initState emptyTable emptyTable)
        (typeString "hello" ++ [spaceEvent])).1.buffer = "hello ".data ∧
    "hello ".data ≠ ([] : List Char) := by
  refine ⟨by decide, by decide⟩

end SwitchLang
